import Mathlib

/-!
# Sigillum Dei Aemeth sketch (`src/pack/sigillum_dei_aemeth.js`)

A shallow embedding of the p5.js sketch.  The sketch is a straight-line sequence of calls
into the drawing library, so `setup` and `draw` are embedded as the list of library calls
they issue (`Cmd`), and the library's graphics state (stroke, fill, text size, transform
stack) is embedded as an explicit state machine (`step`, `run`) that turns a call list into
the list of rendered primitives, each with the style and transform in force when it was
issued.

Numbers are kept abstract: every definition is generic in a field `α` and in the library's
numeric kernel `Trig α` (`cos`, `sin`, `atan2`, `PI`).  Geometric theorems are stated for the
exact real-number kernel `realTrig`; rounding of IEEE doubles is not modelled.
-/

namespace Sigillum

/-! ## Numeric kernel -/

/-- The library functions `cos`, `sin`, `atan2` and the constant `PI` used by the sketch. -/
structure Trig (α : Type) where
  cos : α → α
  sin : α → α
  atan2 : α → α → α
  PI : α

/-- Exact real arithmetic: `atan2 y x` is the argument of `x + y i`, in `(-π, π]`. -/
noncomputable def realTrig : Trig ℝ where
  cos := Real.cos
  sin := Real.sin
  atan2 := fun y x => Complex.arg ⟨x, y⟩
  PI := Real.pi

/-- The library's `radians(angle)`: `angle * (PI / 180)`. -/
def radians {α : Type} [Field α] (T : Trig α) (angle : α) : α :=
  angle * (T.PI / 180)

/-! ## Library calls -/

/-- A colour as passed to `stroke`, `fill`: one grey level or three channels. -/
inductive Color where
  | gray (v : ℕ)
  | rgb (r g b : ℕ)
deriving DecidableEq

/-- Alignment constants of `textAlign`. -/
inductive Align where
  | left | center | right | top | bottom | baseline
deriving DecidableEq

/-- A JavaScript object `{x, y}`. -/
structure Pt (α : Type) where
  x : α
  y : α

/-- The drawing-library calls issued by the sketch.  The string argument of `text` is an
`Option`: `none` stands for JavaScript `undefined` (an out-of-range array read). -/
inductive Cmd (α : Type) where
  | createCanvas (w h : ℕ)
  | background (r g b : ℕ)
  | textAlign (h v : Align)
  | textSize (s : ℕ)
  | noLoop
  | stroke (c : Color)
  | noStroke
  | fill (c : Color)
  | noFill
  | ellipse (x y w h : α)
  | line (x1 y1 x2 y2 : α)
  | push
  | pop
  | translate (x y : α)
  | rotate (angle : α)
  | text (s : Option String) (x y : α)
  | beginShape
  | vertex (x y : α)
  | endShape (close : Bool)

section Sketch

variable {α : Type} [Field α]

/-! ## `setup` -/

/-- The calls of `setup` (lines 1-7). -/
def setup : List (Cmd α) :=
  [.createCanvas 800 800,
   .background 0 128 0,
   .textAlign .center .center,
   .textSize 16,
   .noLoop]

/-! ## `draw` -/

/-- Lines 11-14: the outer and the inner circle. -/
def circles : List (Cmd α) :=
  [.stroke (.gray 255),
   .noFill,
   .ellipse 400 400 700 700,
   .ellipse 400 400 640 640]

/-- Line 17: the letter string split into one-character strings. -/
def letters : List String :=
  "htoexorabaslayqciystalgaaonosvlarycekspfyomeneauarelatedatononaoylepotma".toList.map
    String.singleton

/-- Line 19: `angle = i * 5`, in degrees. -/
def ringAngle (i : ℕ) : α := (i : α) * 5

/-- Lines 20-22: `(x, y)` for ring letter `i`, with `rad = 335`. -/
def ringAnchor (T : Trig α) (i : ℕ) : Pt α :=
  let angle : α := ringAngle i
  let rad : α := 335
  ⟨400 + rad * T.cos (radians T angle), 400 + rad * T.sin (radians T angle)⟩

/-- Lines 19-27: the body of the ring loop for index `i`. -/
def ringLetter (T : Trig α) (i : ℕ) : List (Cmd α) :=
  [.push,
   .translate (ringAnchor T i).x (ringAnchor T i).y,
   .rotate (radians T (ringAngle i)),
   .text letters[i]? 0 0,
   .pop]

/-- Lines 18-28: `for (let i = 0; i < 72; i++)`. -/
def ringLetters (T : Trig α) : List (Cmd α) :=
  (List.range 72).flatMap (ringLetter T)

/-- Lines 31-33: the small cross at the apex. -/
def apexCross : List (Cmd α) :=
  [.stroke (.gray 255),
   .line 400 50 400 70,
   .line 390 60 410 60]

/-- Line 36. -/
def pentagramAngles : List α := [90, 162, 234, 306, 18]

/-- Lines 39-41: the body of the loop over `pentagramAngles`, for the entry `angle`. -/
def pentVertex (T : Trig α) (angle : α) : Pt α :=
  ⟨400 + 320 * T.cos (radians T angle), 400 + 320 * T.sin (radians T angle)⟩

/-- Lines 37-42: `pentPoints`, one point per entry of `pentagramAngles`. -/
def pentPoints (T : Trig α) : List (Pt α) :=
  pentagramAngles.map (pentVertex T)

/-- The call `line(p.x, p.y, q.x, q.y)`. -/
def lineFromTo (p q : Pt α) : Cmd α := .line p.x p.y q.x q.y

/-- The call `line(ps[i].x, ps[i].y, ps[j].x, ps[j].y)`.  Reading `.x` of an out-of-range
element throws; `none` stands for that exception. -/
def lineBetween (ps : List (Pt α)) (i j : ℕ) : Option (Cmd α) := do
  let a ← ps[i]?
  let b ← ps[j]?
  pure (lineFromTo a b)

/-- Lines 44-48: the five strokes of the pentagram, in source order. -/
def pentagramLines (T : Trig α) : Option (List (Cmd α)) := do
  let l1 ← lineBetween (pentPoints T) 0 2
  let l2 ← lineBetween (pentPoints T) 2 4
  let l3 ← lineBetween (pentPoints T) 4 1
  let l4 ← lineBetween (pentPoints T) 1 3
  let l5 ← lineBetween (pentPoints T) 3 0
  pure [l1, l2, l3, l4, l5]

/-- Lines 36-48. -/
def pentagram (T : Trig α) : Option (List (Cmd α)) := do
  let ls ← pentagramLines T
  pure (.stroke (.rgb 255 0 0) :: ls)

/-- Lines 51-55: the glyph at the centre. -/
def tau : List (Cmd α) :=
  [.textSize 40,
   .fill (.gray 255),
   .text (some "T") 400 400,
   .textSize 16,
   .noFill]

/-- Line 58. -/
def names : List String := ["E", "L", "E", "L", "Y"]

/-- Line 59. -/
def pairs : List String := ["lx", "al", "a", "c", "to"]

/-- Lines 61-67: the body of the loop over the five names, for index `i`. -/
def nameLabel (T : Trig α) (i : ℕ) : List (Cmd α) :=
  let angle : α := 90 + (i : α) * 72
  let x1 := 400 + 60 * T.cos (radians T angle)
  let y1 := 400 + 60 * T.sin (radians T angle)
  let x2 := 400 + 80 * T.cos (radians T angle)
  let y2 := 400 + 80 * T.sin (radians T angle)
  [.text names[i]? x1 y1,
   .text pairs[i]? x2 y2]

/-- Lines 60-68: `for (let i = 0; i < 5; i++)`. -/
def namesAroundTau (T : Trig α) : List (Cmd α) :=
  (List.range 5).flatMap (nameLabel T)

/-- Line 71. -/
def radii : List α := [120, 100, 80]

/-- Line 72. -/
def colors : List (List ℕ) := [[0, 0, 255], [255, 255, 0], [255, 255, 0]]

/-- Line 73. -/
def angels : List String :=
  ["Zadkiel", "Samael", "Zfadkiel", "Raphael", "Anael", "Michael", "Gabriel"]

/-- Line 77: `angle = k * (360 / 7)`, in degrees. -/
def heptAngle (k : ℕ) : α := (k : α) * (360 / 7)

/-- Lines 76-80: the body of the vertex loop, for index `k` and radius `radii[r]`. -/
def heptVertex (T : Trig α) (radius : α) (k : ℕ) : Pt α :=
  let angle : α := heptAngle k
  ⟨400 + radius * T.cos (radians T angle), 400 + radius * T.sin (radians T angle)⟩

/-- Lines 75-81: `points`, for `k = 0 .. 6`. -/
def heptPoints (T : Trig α) (radius : α) : List (Pt α) :=
  (List.range 7).map (heptVertex T radius)

/-- Lines 83-85: `beginShape(); for (let p of points) vertex(p.x, p.y); endShape(CLOSE)`. -/
def heptShape (points : List (Pt α)) : List (Cmd α) :=
  [.beginShape] ++ points.map (fun p => .vertex p.x p.y) ++ [.endShape true]

/-- Lines 92-99: one edge label, for the edge from `p1` to `p2` and the string `name`. -/
def edgeLabel (T : Trig α) (p1 p2 : Pt α) (name : Option String) : List (Cmd α) :=
  let mx := (p1.x + p2.x) / 2
  let my := (p1.y + p2.y) / 2
  let angle := T.atan2 (p2.y - p1.y) (p2.x - p1.x)
  [.push,
   .translate mx my,
   .rotate angle,
   .text name 0 0,
   .pop]

/-- Lines 90-99: the body of the label loop, for index `i`.  `none` stands for the exception
thrown when `points[i]` or `points[(i + 1) % 7]` is `undefined`. -/
def heptLabel (T : Trig α) (points : List (Pt α)) (i : ℕ) : Option (List (Cmd α)) := do
  let p1 ← points[i]?
  let p2 ← points[(i + 1) % 7]?
  pure (edgeLabel T p1 p2 angels[i]?)

/-- Lines 88-101: the labels, drawn only when `r === 0`. -/
def heptLabels (T : Trig α) (r : ℕ) (points : List (Pt α)) : Option (List (Cmd α)) :=
  if r = 0 then
    do
      let ls ← (List.range 7).mapM (heptLabel T points)
      pure ls.flatten
  else
    pure []

/-- Lines 104-113: the black discs and crosses, drawn only when `r === 2`. -/
def heptMarks (r : ℕ) (points : List (Pt α)) : List (Cmd α) :=
  if r = 2 then
    [.fill (.gray 0), .noStroke]
      ++ points.map (fun p => .ellipse p.x p.y 10 10)
      ++ [.stroke (.gray 0)]
      ++ points.flatMap (fun p =>
          [.line (p.x - 5) p.y (p.x + 5) p.y,
           .line p.x (p.y - 5) p.x (p.y + 5)])
  else
    []

/-- Line 82: `stroke(colors[r][0], colors[r][1], colors[r][2])`.  `none` stands for an
out-of-range read. -/
def heptStroke (r : ℕ) : Option (Cmd α) := do
  let col ← colors[r]?
  let red ← col[0]?
  let green ← col[1]?
  let blue ← col[2]?
  pure (.stroke (.rgb red green blue))

/-- Lines 75-113: the body of the heptagon loop, for index `r`.  An out-of-range read of
`radii[r]` (which in JavaScript would yield NaN coordinates) is also reported as `none`. -/
def heptagon (T : Trig α) (r : ℕ) : Option (List (Cmd α)) := do
  let radius ← (radii : List α)[r]?
  let points := heptPoints T radius
  let s ← heptStroke r
  let labels ← heptLabels T r points
  pure (s :: heptShape points ++ labels ++ heptMarks r points)

/-- Lines 74-114: `for (let r = 0; r < 3; r++)`. -/
def heptagons (T : Trig α) : Option (List (Cmd α)) := do
  let hs ← (List.range 3).mapM (heptagon T)
  pure hs.flatten

/-- The calls of `draw` (lines 9-115), or `none` if an indexed read throws. -/
def draw (T : Trig α) : Option (List (Cmd α)) := do
  let pent ← pentagram T
  let hepts ← heptagons T
  pure (circles ++ ringLetters T ++ apexCross ++ pent ++ tau ++ namesAroundTau T ++ hepts)

/-! ## Graphics state of the drawing library -/

/-- The style part of the graphics state, saved and restored by `push` / `pop`. -/
structure Style where
  stroke : Option Color
  fill : Option Color
  textSize : ℕ
  alignH : Align
  alignV : Align
deriving DecidableEq

/-- An affine transform `(x, y) ↦ (a x + c y + e, b x + d y + f)`. -/
structure Mat (α : Type) where
  a : α
  b : α
  c : α
  d : α
  e : α
  f : α

/-- The identity transform. -/
def Mat.id : Mat α := ⟨1, 0, 0, 1, 0, 0⟩

/-- Effect of `translate(x, y)` on the current transform (post-multiplication). -/
def Mat.translate (m : Mat α) (x y : α) : Mat α :=
  { m with e := m.a * x + m.c * y + m.e, f := m.b * x + m.d * y + m.f }

/-- Effect of `rotate(angle)` on the current transform (post-multiplication). -/
def Mat.rotate (T : Trig α) (m : Mat α) (angle : α) : Mat α :=
  { m with
    a := m.a * T.cos angle + m.c * T.sin angle
    b := m.b * T.cos angle + m.d * T.sin angle
    c := m.c * T.cos angle - m.a * T.sin angle
    d := m.d * T.cos angle - m.b * T.sin angle }

/-- The graphics state. -/
structure GState (α : Type) where
  style : Style
  ctm : Mat α
  stack : List (Style × Mat α)
  shape : List (Pt α)
  canvas : Option (ℕ × ℕ)
  looping : Bool

/-- What a call puts on the canvas. -/
inductive Shape (α : Type) where
  | clear (r g b : ℕ)
  | ellipse (x y w h : α)
  | line (x1 y1 x2 y2 : α)
  | text (s : Option String) (x y : α)
  | polygon (vs : List (Pt α)) (close : Bool)

/-- A rendered primitive: the shape with the style and transform in force. -/
structure Prim (α : Type) where
  shape : Shape α
  style : Style
  ctm : Mat α

/-- The library's state before `setup`: black stroke, white fill, text size 12. -/
def initState : GState α :=
  { style := ⟨some (.gray 0), some (.gray 255), 12, .left, .baseline⟩
    ctm := Mat.id
    stack := []
    shape := []
    canvas := none
    looping := true }

/-- One library call: the new state and the primitives it renders.  The drawing library is
not part of the repository; this follows its reference documentation: `stroke`, `fill`,
`textSize` and `textAlign` set the style, `push` saves style and transform, `pop` restores
them (and does nothing on an empty stack), `translate` and `rotate` post-multiply the
transform, and a shape is rendered with the style and transform current at the call. -/
def step (T : Trig α) (s : GState α) : Cmd α → GState α × List (Prim α)
  | .createCanvas w h => ({ s with canvas := some (w, h) }, [])
  | .background r g b => (s, [⟨.clear r g b, s.style, s.ctm⟩])
  | .textAlign h v => ({ s with style := { s.style with alignH := h, alignV := v } }, [])
  | .textSize n => ({ s with style := { s.style with textSize := n } }, [])
  | .noLoop => ({ s with looping := false }, [])
  | .stroke c => ({ s with style := { s.style with stroke := some c } }, [])
  | .noStroke => ({ s with style := { s.style with stroke := none } }, [])
  | .fill c => ({ s with style := { s.style with fill := some c } }, [])
  | .noFill => ({ s with style := { s.style with fill := none } }, [])
  | .ellipse x y w h => (s, [⟨.ellipse x y w h, s.style, s.ctm⟩])
  | .line x1 y1 x2 y2 => (s, [⟨.line x1 y1 x2 y2, s.style, s.ctm⟩])
  | .push => ({ s with stack := (s.style, s.ctm) :: s.stack }, [])
  | .pop =>
      match s.stack with
      | [] => (s, [])
      | (st, m) :: rest => ({ s with style := st, ctm := m, stack := rest }, [])
  | .translate x y => ({ s with ctm := s.ctm.translate x y }, [])
  | .rotate angle => ({ s with ctm := s.ctm.rotate T angle }, [])
  | .text str x y => (s, [⟨.text str x y, s.style, s.ctm⟩])
  | .beginShape => ({ s with shape := [] }, [])
  | .vertex x y => ({ s with shape := s.shape ++ [⟨x, y⟩] }, [])
  | .endShape close => ({ s with shape := [] }, [⟨.polygon s.shape close, s.style, s.ctm⟩])

/-- A call sequence: the final state and all primitives rendered, in order. -/
def run (T : Trig α) : GState α → List (Cmd α) → GState α × List (Prim α)
  | s, [] => (s, [])
  | s, c :: cs =>
      let r := step T s c
      let r2 := run T r.1 cs
      (r2.1, r.2 ++ r2.2)

/-- The state `setup` leaves behind. -/
def afterSetup (T : Trig α) : GState α := (run T initState setup).1

/-- The call `draw()` made in state `s`: the state it leaves and what it renders. -/
def runDraw (T : Trig α) (s : GState α) : Option (GState α × List (Prim α)) :=
  (draw T).map (run T s)

/-- What `draw` renders when it is called right after `setup`, or `none` if it throws. -/
def drawn (T : Trig α) : Option (List (Prim α)) :=
  (runDraw T (afterSetup T)).map Prod.snd

/-! ## Observations on call lists and renderings -/

/-- The string arguments of the `text` calls of a call list, in order. -/
def textCalls : List (Cmd α) → List (Option String)
  | [] => []
  | .text str _ _ :: cs => str :: textCalls cs
  | _ :: cs => textCalls cs

/-- Whether a primitive is a `text` call. -/
def Prim.isText (p : Prim α) : Bool :=
  match p.shape with
  | .text _ _ _ => true
  | _ => false

/-- The `text` primitives of a rendering, in order. -/
def textPrims (ps : List (Prim α)) : List (Prim α) := ps.filter Prim.isText

/-- The string of a `text` primitive. -/
def Prim.label (p : Prim α) : Option String :=
  match p.shape with
  | .text str _ _ => str
  | _ => none

/-- Where the linear part of a transform sends the unit vector `(1, 0)`: the direction of the
baseline of a text drawn under the transform. -/
def Mat.baseline (m : Mat α) : Pt α := ⟨m.a, m.b⟩

/-- The edge labels of the heptagon of radius `R`, as issued when no read fails
(`heptLabels_zero`). -/
def edgeLabels (T : Trig α) (R : α) : List (Cmd α) :=
  (List.range 7).flatMap fun i =>
    edgeLabel T (heptVertex T R i) (heptVertex T R ((i + 1) % 7)) angels[i]?

/-- The strokes of the pentagram, as issued when no read fails (`pentagram_eq`). -/
def pentagramStrokes (T : Trig α) : List (Cmd α) :=
  [.stroke (.rgb 255 0 0),
   lineFromTo (pentVertex T 90) (pentVertex T 234),
   lineFromTo (pentVertex T 234) (pentVertex T 18),
   lineFromTo (pentVertex T 18) (pentVertex T 162),
   lineFromTo (pentVertex T 162) (pentVertex T 306),
   lineFromTo (pentVertex T 306) (pentVertex T 90)]

/-- The style `st` with stroke and fill replaced. -/
def Style.paint (st : Style) (stroke fill : Option Color) : Style :=
  { st with stroke := stroke, fill := fill }

/-- A centred style of text size `n`: the alignment `setup` selects. -/
def centred (stroke fill : Option Color) (n : ℕ) : Style :=
  ⟨stroke, fill, n, .center, .center⟩

/-- The primitive rendered by `lineFromTo p q`. -/
def strokePrim (p q : Pt α) (st : Style) (m : Mat α) : Prim α :=
  ⟨.line p.x p.y q.x q.y, st, m⟩

/-- The primitive rendered for ring letter `i` under style `st` and transform `m`. -/
def ringText (T : Trig α) (st : Style) (m : Mat α) (i : ℕ) : Prim α :=
  ⟨.text letters[i]? 0 0, st,
    (m.translate (ringAnchor T i).x (ringAnchor T i).y).rotate T (radians T (ringAngle i))⟩

/-- The primitive rendered by `edgeLabel T p1 p2 name` under style `st` and transform `m`. -/
def edgeText (T : Trig α) (st : Style) (m : Mat α) (p1 p2 : Pt α) (name : Option String) :
    Prim α :=
  ⟨.text name 0 0, st,
    (m.translate ((p1.x + p2.x) / 2) ((p1.y + p2.y) / 2)).rotate T
      (T.atan2 (p2.y - p1.y) (p2.x - p1.x))⟩

/-- The two primitives rendered by `nameLabel T i` under style `st` and transform `m`. -/
def nameTexts (T : Trig α) (st : Style) (m : Mat α) (i : ℕ) : List (Prim α) :=
  [⟨.text names[i]? (400 + 60 * T.cos (radians T (90 + (i : α) * 72)))
      (400 + 60 * T.sin (radians T (90 + (i : α) * 72))), st, m⟩,
   ⟨.text pairs[i]? (400 + 80 * T.cos (radians T (90 + (i : α) * 72)))
      (400 + 80 * T.sin (radians T (90 + (i : α) * 72))), st, m⟩]

/-- The primitive rendered for the glyph at the centre. -/
def tauText : Prim α :=
  ⟨.text (some "T") 400 400, centred (some (.rgb 255 0 0)) (some (.gray 255)) 40, Mat.id⟩

/-- The primitives rendered by `heptMarks 2 ps` under style `st` and transform `m`. -/
def markPrims (st : Style) (m : Mat α) (ps : List (Pt α)) : List (Prim α) :=
  (ps.map fun p => ⟨.ellipse p.x p.y 10 10, st.paint none (some (.gray 0)), m⟩)
    ++ ps.flatMap fun p =>
      [⟨.line (p.x - 5) p.y (p.x + 5) p.y, st.paint (some (.gray 0)) (some (.gray 0)), m⟩,
       ⟨.line p.x (p.y - 5) p.x (p.y + 5), st.paint (some (.gray 0)) (some (.gray 0)), m⟩]

/-- The primitives `draw` renders when it starts with text size 16, centred alignment, the
identity transform and an empty stack (`run_draw`). -/
def rendering (T : Trig α) : List (Prim α) :=
  [⟨.ellipse 400 400 700 700, centred (some (.gray 255)) none 16, Mat.id⟩,
   ⟨.ellipse 400 400 640 640, centred (some (.gray 255)) none 16, Mat.id⟩]
  ++ ((List.range 72).flatMap (fun i => [ringText T (centred (some (.gray 255)) none 16) Mat.id i])
  ++ ([⟨.line 400 50 400 70, centred (some (.gray 255)) none 16, Mat.id⟩,
       ⟨.line 390 60 410 60, centred (some (.gray 255)) none 16, Mat.id⟩]
  ++ ([strokePrim (pentVertex T 90) (pentVertex T 234)
         (centred (some (.rgb 255 0 0)) none 16) Mat.id,
       strokePrim (pentVertex T 234) (pentVertex T 18)
         (centred (some (.rgb 255 0 0)) none 16) Mat.id,
       strokePrim (pentVertex T 18) (pentVertex T 162)
         (centred (some (.rgb 255 0 0)) none 16) Mat.id,
       strokePrim (pentVertex T 162) (pentVertex T 306)
         (centred (some (.rgb 255 0 0)) none 16) Mat.id,
       strokePrim (pentVertex T 306) (pentVertex T 90)
         (centred (some (.rgb 255 0 0)) none 16) Mat.id]
  ++ ([tauText]
  ++ ((List.range 5).flatMap (nameTexts T (centred (some (.rgb 255 0 0)) none 16) Mat.id)
  ++ ([]
  ++ ([⟨.polygon (heptPoints T 120) true, centred (some (.rgb 0 0 255)) none 16, Mat.id⟩]
  ++ ((List.range 7).flatMap (fun i =>
        [edgeText T (centred (some (.rgb 0 0 255)) none 16) Mat.id
          (heptVertex T 120 i) (heptVertex T 120 ((i + 1) % 7)) angels[i]?])
  ++ ([]
  ++ ([⟨.polygon (heptPoints T 100) true, centred (some (.rgb 255 255 0)) none 16, Mat.id⟩]
  ++ ([]
  ++ ([⟨.polygon (heptPoints T 80) true, centred (some (.rgb 255 255 0)) none 16, Mat.id⟩]
  ++ markPrims (centred (some (.rgb 255 255 0)) none 16) Mat.id (heptPoints T 80)))))))))))))

end Sketch

/-! # Lemmas -/

section CallLists

variable {α : Type} [Field α]

/-! ## The call list of `draw`, section by section -/

theorem heptLabels_zero (T : Trig α) (R : α) :
    heptLabels T 0 (heptPoints T R) = some (edgeLabels T R) := rfl

theorem pentagram_eq (T : Trig α) : pentagram T = some (pentagramStrokes T) := rfl

theorem heptagon_zero (T : Trig α) :
    heptagon T 0 =
      some ([.stroke (.rgb 0 0 255)] ++ (heptShape (heptPoints T 120) ++ edgeLabels T 120)) :=
  rfl

theorem heptagon_one (T : Trig α) :
    heptagon T 1 = some ([.stroke (.rgb 255 255 0)] ++ heptShape (heptPoints T 100)) := rfl

theorem heptagon_two (T : Trig α) :
    heptagon T 2 =
      some ([.stroke (.rgb 255 255 0)] ++ (heptShape (heptPoints T 80)
        ++ heptMarks 2 (heptPoints T 80))) := rfl

theorem heptagons_eq (T : Trig α) :
    heptagons T =
      some ([.stroke (.rgb 0 0 255)] ++ (heptShape (heptPoints T 120) ++ (edgeLabels T 120
        ++ ([.stroke (.rgb 255 255 0)] ++ (heptShape (heptPoints T 100)
        ++ ([.stroke (.rgb 255 255 0)] ++ (heptShape (heptPoints T 80)
        ++ heptMarks 2 (heptPoints T 80)))))))) := by
  simp [heptagons, List.mapM.loop, List.range_succ, heptagon_zero, heptagon_one, heptagon_two]

theorem draw_eq (T : Trig α) :
    draw T =
      some (circles ++ (ringLetters T ++ (apexCross ++ (pentagramStrokes T ++ (tau
        ++ (namesAroundTau T
        ++ ([.stroke (.rgb 0 0 255)] ++ (heptShape (heptPoints T 120) ++ (edgeLabels T 120
        ++ ([.stroke (.rgb 255 255 0)] ++ (heptShape (heptPoints T 100)
        ++ ([.stroke (.rgb 255 255 0)] ++ (heptShape (heptPoints T 80)
        ++ heptMarks 2 (heptPoints T 80)))))))))))))) := by
  simp only [draw, pentagram_eq, heptagons_eq, Option.bind_eq_bind, Option.some_bind,
    Option.pure_def, List.append_assoc]

/-! ## Running call lists -/

theorem run_append (T : Trig α) (s : GState α) (xs ys : List (Cmd α)) :
    run T s (xs ++ ys) =
      ((run T (run T s xs).1 ys).1, (run T s xs).2 ++ (run T (run T s xs).1 ys).2) := by
  induction xs generalizing s with
  | nil => simp [run]
  | cons c cs ih => simp [run, ih, List.append_assoc]

theorem run_seq (T : Trig α) {s s1 s2 : GState α} {xs ys : List (Cmd α)}
    {o1 o2 : List (Prim α)} (h1 : run T s xs = (s1, o1)) (h2 : run T s1 ys = (s2, o2)) :
    run T s (xs ++ ys) = (s2, o1 ++ o2) := by
  rw [run_append, h1, h2]

theorem run_flatMap_fixed {ι : Type} (T : Trig α) (s : GState α) (l : List ι)
    (f : ι → List (Cmd α)) (g : ι → List (Prim α)) (h : ∀ i, run T s (f i) = (s, g i)) :
    run T s (l.flatMap f) = (s, l.flatMap g) := by
  induction l with
  | nil => simp [run]
  | cons i is ih => simp [List.flatMap_cons, run_append, h, ih]

theorem run_map_fixed {ι : Type} (T : Trig α) (s : GState α) (l : List ι)
    (f : ι → Cmd α) (g : ι → Prim α) (h : ∀ i, step T s (f i) = (s, [g i])) :
    run T s (l.map f) = (s, l.map g) := by
  induction l with
  | nil => simp [run]
  | cons i is ih => simp [run, h, ih]

theorem run_vertices (T : Trig α) (s : GState α) (ps : List (Pt α)) :
    run T s (ps.map fun p => .vertex p.x p.y) = ({ s with shape := s.shape ++ ps }, []) := by
  induction ps generalizing s with
  | nil => simp [run]
  | cons p ps ih => simp [run, step, ih]

theorem run_circles (T : Trig α) (s : GState α) :
    run T s circles =
      ({ s with style := s.style.paint (some (.gray 255)) none },
       [⟨.ellipse 400 400 700 700, s.style.paint (some (.gray 255)) none, s.ctm⟩,
        ⟨.ellipse 400 400 640 640, s.style.paint (some (.gray 255)) none, s.ctm⟩]) := rfl

theorem run_ringLetter (T : Trig α) (s : GState α) (i : ℕ) :
    run T s (ringLetter T i) = (s, [ringText T s.style s.ctm i]) := rfl

theorem run_ringLetters (T : Trig α) (s : GState α) :
    run T s (ringLetters T) =
      (s, (List.range 72).flatMap fun i => [ringText T s.style s.ctm i]) :=
  run_flatMap_fixed T s _ _ _ (run_ringLetter T s)

theorem run_apexCross (T : Trig α) (s : GState α) :
    run T s apexCross =
      ({ s with style := s.style.paint (some (.gray 255)) s.style.fill },
       [⟨.line 400 50 400 70, s.style.paint (some (.gray 255)) s.style.fill, s.ctm⟩,
        ⟨.line 390 60 410 60, s.style.paint (some (.gray 255)) s.style.fill, s.ctm⟩]) := rfl

theorem run_pentagramStrokes (T : Trig α) (s : GState α) :
    run T s (pentagramStrokes T) =
      ({ s with style := s.style.paint (some (.rgb 255 0 0)) s.style.fill },
       [strokePrim (pentVertex T 90) (pentVertex T 234)
          (s.style.paint (some (.rgb 255 0 0)) s.style.fill) s.ctm,
        strokePrim (pentVertex T 234) (pentVertex T 18)
          (s.style.paint (some (.rgb 255 0 0)) s.style.fill) s.ctm,
        strokePrim (pentVertex T 18) (pentVertex T 162)
          (s.style.paint (some (.rgb 255 0 0)) s.style.fill) s.ctm,
        strokePrim (pentVertex T 162) (pentVertex T 306)
          (s.style.paint (some (.rgb 255 0 0)) s.style.fill) s.ctm,
        strokePrim (pentVertex T 306) (pentVertex T 90)
          (s.style.paint (some (.rgb 255 0 0)) s.style.fill) s.ctm]) := rfl

theorem run_tau (T : Trig α) (s : GState α) :
    run T s tau =
      ({ s with style := { s.style with fill := none, textSize := 16 } },
       [⟨.text (some "T") 400 400,
         { s.style with fill := some (.gray 255), textSize := 40 }, s.ctm⟩]) := rfl

theorem run_namesAroundTau (T : Trig α) (s : GState α) :
    run T s (namesAroundTau T) = (s, (List.range 5).flatMap (nameTexts T s.style s.ctm)) :=
  run_flatMap_fixed T s _ _ _ (fun _ => rfl)

theorem run_stroke (T : Trig α) (s : GState α) (k : Color) :
    run T s [.stroke k] = ({ s with style := s.style.paint (some k) s.style.fill }, []) := rfl

theorem run_heptShape (T : Trig α) (s : GState α) (ps : List (Pt α)) :
    run T s (heptShape ps) = ({ s with shape := [] }, [⟨.polygon ps true, s.style, s.ctm⟩]) := by
  simp [heptShape, run_append, run_vertices, run, step]

theorem run_edgeLabel (T : Trig α) (s : GState α) (p1 p2 : Pt α) (name : Option String) :
    run T s (edgeLabel T p1 p2 name) = (s, [edgeText T s.style s.ctm p1 p2 name]) := rfl

theorem run_edgeLabels (T : Trig α) (s : GState α) (R : α) :
    run T s (edgeLabels T R) =
      (s, (List.range 7).flatMap fun i =>
        [edgeText T s.style s.ctm (heptVertex T R i) (heptVertex T R ((i + 1) % 7))
          angels[i]?]) :=
  run_flatMap_fixed T s _ _ _ (fun _ => run_edgeLabel T s _ _ _)

theorem run_heptMarks (T : Trig α) (s : GState α) (ps : List (Pt α)) :
    run T s (heptMarks 2 ps) =
      ({ s with style := s.style.paint (some (.gray 0)) (some (.gray 0)) },
        markPrims s.style s.ctm ps) := by
  have h1 : run T s [.fill (.gray 0), .noStroke] =
      ({ s with style := s.style.paint none (some (.gray 0)) }, []) := rfl
  have h2 := run_map_fixed T { s with style := s.style.paint none (some (.gray 0)) } ps
    (fun p => Cmd.ellipse p.x p.y 10 10)
    (fun p => ⟨.ellipse p.x p.y 10 10, s.style.paint none (some (.gray 0)), s.ctm⟩)
    (fun _ => rfl)
  have h3 : run T { s with style := s.style.paint none (some (.gray 0)) } [.stroke (.gray 0)] =
      ({ s with style := s.style.paint (some (.gray 0)) (some (.gray 0)) }, []) := rfl
  have h4 := run_flatMap_fixed T
    { s with style := s.style.paint (some (.gray 0)) (some (.gray 0)) } ps
    (fun p => [Cmd.line (p.x - 5) p.y (p.x + 5) p.y, Cmd.line p.x (p.y - 5) p.x (p.y + 5)])
    (fun p =>
      [⟨.line (p.x - 5) p.y (p.x + 5) p.y,
          s.style.paint (some (.gray 0)) (some (.gray 0)), s.ctm⟩,
       ⟨.line p.x (p.y - 5) p.x (p.y + 5),
          s.style.paint (some (.gray 0)) (some (.gray 0)), s.ctm⟩])
    (fun _ => rfl)
  have := run_seq T (run_seq T (run_seq T h1 h2) h3) h4
  simpa [heptMarks, markPrims] using this

/-- Started with text size 16, centred alignment, the identity transform and an empty stack,
whatever the stroke, fill and pending shape, `draw` renders `rendering T` and leaves a state
that differs from the start only in stroke and fill (both black) and the pending shape. -/
theorem run_draw (T : Trig α) (k f : Option Color) (sh : List (Pt α))
    (cv : Option (ℕ × ℕ)) (lp : Bool) :
    runDraw T ⟨centred k f 16, Mat.id, [], sh, cv, lp⟩ =
      some (⟨centred (some (.gray 0)) (some (.gray 0)) 16, Mat.id, [], [], cv, lp⟩,
        rendering T) := by
  rw [runDraw, draw_eq, Option.map_some']
  exact congrArg some <|
    run_seq T (run_circles T _) <|
    run_seq T (run_ringLetters T _) <|
    run_seq T (run_apexCross T _) <|
    run_seq T (run_pentagramStrokes T _) <|
    run_seq T (run_tau T _) <|
    run_seq T (run_namesAroundTau T _) <|
    run_seq T (run_stroke T _ _) <|
    run_seq T (run_heptShape T _ _) <|
    run_seq T (run_edgeLabels T _ _) <|
    run_seq T (run_stroke T _ _) <|
    run_seq T (run_heptShape T _ _) <|
    run_seq T (run_stroke T _ _) <|
    run_seq T (run_heptShape T _ _) (run_heptMarks T _ _)

theorem afterSetup_eq (T : Trig α) :
    afterSetup T =
      ⟨centred (some (.gray 0)) (some (.gray 255)) 16, Mat.id, [], [], some (800, 800), false⟩ :=
  rfl

theorem drawn_eq (T : Trig α) : drawn T = some (rendering T) := by
  rw [drawn, afterSetup_eq, run_draw]
  rfl

end CallLists

section Filtering

variable {α : Type}

theorem textPrims_append (ps qs : List (Prim α)) :
    textPrims (ps ++ qs) = textPrims ps ++ textPrims qs := by
  simp [textPrims]

theorem textPrims_flatMap_text {ι : Type} (l : List ι) (g : ι → List (Prim α))
    (h : ∀ i, ∀ p ∈ g i, p.isText = true) : textPrims (l.flatMap g) = l.flatMap g := by
  simp only [textPrims, List.filter_eq_self, List.mem_flatMap]
  rintro p ⟨i, -, hp⟩
  exact h i p hp

end Filtering

section Texts

variable {α : Type} [Field α]

/-! ## The text primitives of the rendering -/

theorem textPrims_markPrims (st : Style) (m : Mat α) (ps : List (Pt α)) :
    textPrims (markPrims st m ps) = [] := by
  simp only [textPrims, List.filter_eq_nil_iff, markPrims, List.mem_append, List.mem_map,
    List.mem_flatMap]
  rintro p (⟨q, -, rfl⟩ | ⟨q, -, hp⟩)
  · simp [Prim.isText]
  · simp only [List.mem_cons, List.mem_singleton, List.not_mem_nil, or_false] at hp
    rcases hp with rfl | rfl <;> simp [Prim.isText]

theorem flatMap_single {ι β : Type} (l : List ι) (g : ι → β) :
    (l.flatMap fun i => [g i]) = l.map g := by
  induction l with
  | nil => rfl
  | cons i is ih => simp [List.flatMap_cons, ih]

/-- The text primitives of the rendering: 72 ring letters, the centre glyph, the ten labels
around it and the seven edge labels, in this order. -/
theorem textPrims_rendering (T : Trig α) :
    textPrims (rendering T) =
      (List.range 72).map (ringText T (centred (some (.gray 255)) none 16) Mat.id)
      ++ (tauText
        :: ((List.range 5).flatMap (nameTexts T (centred (some (.rgb 255 0 0)) none 16) Mat.id)
      ++ (List.range 7).map fun i =>
          edgeText T (centred (some (.rgb 0 0 255)) none 16) Mat.id
            (heptVertex T 120 i) (heptVertex T 120 ((i + 1) % 7)) angels[i]?)) := by
  have h1 := textPrims_flatMap_text (List.range 72)
    (fun i => [ringText T (centred (some (.gray 255)) none 16) Mat.id i])
    (by intro i p hp; simp only [List.mem_singleton] at hp; subst hp; rfl)
  have h2 := textPrims_flatMap_text (List.range 5)
    (nameTexts T (centred (some (.rgb 255 0 0)) none 16) Mat.id)
    (by
      intro i p hp
      simp only [nameTexts, List.mem_cons, List.mem_singleton, List.not_mem_nil,
        or_false] at hp
      rcases hp with rfl | rfl <;> rfl)
  have h3 := textPrims_flatMap_text (List.range 7)
    (fun i => [edgeText T (centred (some (.rgb 0 0 255)) none 16) Mat.id
      (heptVertex T 120 i) (heptVertex T 120 ((i + 1) % 7)) angels[i]?])
    (by intro i p hp; simp only [List.mem_singleton] at hp; subst hp; rfl)
  rw [rendering]
  simp only [textPrims_append, h1, h2, h3, textPrims_markPrims]
  simp [textPrims, Prim.isText, strokePrim, tauText, flatMap_single]

theorem textPrims_rendering_ring (T : Trig α) (i : ℕ) (hi : i < 72) :
    (textPrims (rendering T))[i]? =
      some (ringText T (centred (some (.gray 255)) none 16) Mat.id i) := by
  rw [textPrims_rendering, List.getElem?_append_left (by simpa using hi)]
  simp [List.getElem?_range hi, hi]

theorem textPrims_rendering_tau (T : Trig α) :
    (textPrims (rendering T))[72]? = some tauText := by
  rw [textPrims_rendering, List.getElem?_append_right (by simp)]
  simp

end Texts

section CallFiltering

variable {α : Type}

theorem textCalls_append (xs ys : List (Cmd α)) :
    textCalls (xs ++ ys) = textCalls xs ++ textCalls ys := by
  induction xs with
  | nil => rfl
  | cons c cs ih => cases c <;> simp [textCalls, ih]

theorem textCalls_vertices (ps : List (Pt α)) :
    textCalls (ps.map fun p => Cmd.vertex p.x p.y) = [] := by
  induction ps with
  | nil => rfl
  | cons p ps ih => simpa [textCalls] using ih

theorem textCalls_flatMap {ι : Type} (l : List ι) (f : ι → List (Cmd α)) :
    textCalls (l.flatMap f) = l.flatMap fun i => textCalls (f i) := by
  induction l with
  | nil => rfl
  | cons i is ih => simp [List.flatMap_cons, textCalls_append, ih]

theorem textCalls_heptShape (ps : List (Pt α)) : textCalls (heptShape ps) = [] := by
  simp [heptShape, textCalls_append, textCalls_vertices, textCalls]

end CallFiltering

section CallTexts

variable {α : Type} [Field α]

/-! ## The text calls of `draw` -/

theorem textCalls_heptMarks (ps : List (Pt α)) : textCalls (heptMarks 2 ps) = [] := by
  have h1 : textCalls (ps.map fun p => Cmd.ellipse p.x p.y 10 10) = [] := by
    induction ps with
    | nil => rfl
    | cons p ps ih => simpa [textCalls] using ih
  have h2 : textCalls (ps.flatMap fun p =>
      [Cmd.line (p.x - 5) p.y (p.x + 5) p.y, Cmd.line p.x (p.y - 5) p.x (p.y + 5)]) = [] := by
    rw [textCalls_flatMap]
    simp [textCalls]
  simp [heptMarks, textCalls_append, h1, h2, textCalls]

theorem ring_reads : (List.range 72).map (fun i => letters[i]?) = letters.map some := by
  decide

theorem textCalls_ringLetters (T : Trig α) : textCalls (ringLetters T) = letters.map some := by
  rw [ringLetters, textCalls_flatMap, ← ring_reads]
  exact flatMap_single _ _

theorem textCalls_namesAroundTau (T : Trig α) :
    textCalls (namesAroundTau T) =
      [some "E", some "lx", some "L", some "al", some "E", some "a", some "L", some "c",
       some "Y", some "to"] := by
  rw [namesAroundTau, textCalls_flatMap]
  rfl

theorem textCalls_edgeLabels (T : Trig α) (R : α) :
    textCalls (edgeLabels T R) = angels.map some := by
  rw [edgeLabels, textCalls_flatMap]
  rfl

theorem textCalls_draw (T : Trig α) (cmds : List (Cmd α)) (h : draw T = some cmds) :
    textCalls cmds =
      letters.map some ++ some "T" ::
        ([some "E", some "lx", some "L", some "al", some "E", some "a", some "L", some "c",
          some "Y", some "to"] ++ angels.map some) := by
  rw [draw_eq] at h
  cases h
  simp only [textCalls_append, textCalls_ringLetters, textCalls_namesAroundTau,
    textCalls_edgeLabels, textCalls_heptShape, textCalls_heptMarks]
  simp [textCalls, circles, apexCross, pentagramStrokes, lineFromTo, tau]

end CallTexts

section PolygonFiltering

variable {α : Type}

end PolygonFiltering

section Polygons

variable {α : Type} [Field α]

/-! ## The polygons of the rendering -/

end Polygons

/-! ## Exact real arithmetic -/

section RealKernel

open Real

end RealKernel

/-! # Claims -/

/-! ## Claims about the call sequence and the graphics state -/

section StateClaims

variable {α : Type} [Field α]

/-- C4: calling `draw` a second time, from the graphics state the first call leaves behind,
renders exactly the same sequence of primitives (shape, stroke, fill, text size, alignment
and transform of each) as the first call made from the state `setup` leaves behind; both
calls return, and the second leaves the state the first one left. -/
theorem C4_draw_twice_renders_the_same (T : Trig α) :
    ∃ (s1 : GState α) (out : List (Prim α)),
      runDraw T (afterSetup T) = some (s1, out) ∧ runDraw T s1 = some (s1, out) :=
  ⟨_, rendering T, by rw [afterSetup_eq]; exact run_draw T _ _ _ _ _, run_draw T _ _ _ _ _⟩

/-- C8: `setup` selects text size 16; in the rendering of `draw` there are 90 text primitives,
the one at index 72 is the glyph "T" at `(400, 400)` under the identity transform with text
size 40, every other one (72 ring letters before it, 10 labels around the centre and 7 edge
labels after it) has text size 16, and `draw` leaves the text size at 16. -/
theorem C8_centre_glyph_is_the_only_text_at_size_40 (T : Trig α) :
    (afterSetup T).style.textSize = 16 ∧
    ∃ (s : GState α) (out : List (Prim α)),
      runDraw T (afterSetup T) = some (s, out) ∧
      (textPrims out)[72]? =
        some ⟨.text (some "T") 400 400,
          ⟨some (.rgb 255 0 0), some (.gray 255), 40, .center, .center⟩, Mat.id⟩ ∧
      (textPrims out).map (fun p => p.style.textSize) =
        List.replicate 72 16 ++ 40 :: List.replicate 17 16 ∧
      (textPrims out).map Prim.label =
        letters.map some ++ some "T" ::
          ([some "E", some "lx", some "L", some "al", some "E", some "a", some "L", some "c",
            some "Y", some "to"] ++ angels.map some) ∧
      s.style.textSize = 16 := by
  refine ⟨rfl, _, rendering T, by rw [afterSetup_eq]; exact run_draw T _ _ _ _ _,
    textPrims_rendering_tau T, ?_, ?_, rfl⟩
  · rw [textPrims_rendering]
    have h5 : List.range 5 = [0, 1, 2, 3, 4] := rfl
    have h7 : List.range 7 = [0, 1, 2, 3, 4, 5, 6] := rfl
    simp only [List.map_append, List.map_cons, List.map_map]
    rw [h5, h7]
    simp [nameTexts, ringText, edgeText, tauText, centred, Function.comp_def]
  · rw [textPrims_rendering]
    have h5 : List.range 5 = [0, 1, 2, 3, 4] := rfl
    have h7 : List.range 7 = [0, 1, 2, 3, 4, 5, 6] := rfl
    simp only [List.map_append, List.map_cons, List.map_map]
    rw [h5, h7]
    simpa [nameTexts, ringText, edgeText, tauText, Prim.label, Function.comp_def, names, pairs,
      angels] using ring_reads

/-- C9: the letter string splits into exactly 72 one-character strings, `names` and `pairs`
have 5 elements, `angels` 7, `radii` and `colors` 3 (each colour 3 channels), `pentPoints` 5
and every `points` list 7; `draw` returns without an out-of-range read throwing; the 72 text
calls of the ring loop receive the 72 letters, each once and in order; and no text call of
`draw` receives `undefined`. -/
theorem C9_indexed_reads_in_bounds (T : Trig α) :
    letters.length = 72 ∧ names.length = 5 ∧ pairs.length = 5 ∧ angels.length = 7 ∧
    (radii : List α).length = 3 ∧ colors.map List.length = [3, 3, 3] ∧
    (pentPoints T).length = 5 ∧ (∀ R : α, (heptPoints T R).length = 7) ∧
    (List.range 72).map (fun i => letters[i]?) = letters.map some ∧
    textCalls (ringLetters T) = letters.map some ∧
    ∃ cmds : List (Cmd α), draw T = some cmds ∧ (textCalls cmds).length = 90 ∧
      (textCalls cmds).all Option.isSome = true := by
  refine ⟨by decide, rfl, rfl, rfl, rfl, rfl, rfl, fun _ => rfl, ring_reads,
    textCalls_ringLetters T, _, draw_eq T, ?_, ?_⟩
  · rw [textCalls_draw T _ (draw_eq T)]
    decide
  · rw [textCalls_draw T _ (draw_eq T)]
    decide

end StateClaims

/-! ## Claims about the ring of letters -/

section RingClaims

open Real

/-- C7: on the 800 x 800 canvas, the loop body for ring letter 0 issues
`translate(735, 400)`, `rotate(0)` and `text("h", 0, 0)`; these are the first calls of `draw`
after the two circles, and the first text primitive rendered is "h" under the transform that
is the pure translation to `(735, 400)`. -/
theorem C7_letter_zero_at_735_400 :
    (afterSetup realTrig).canvas = some (800, 800) ∧
    ringLetter realTrig 0 =
      [.push, .translate 735 400, .rotate 0, .text (some "h") 0 0, .pop] ∧
    (∃ rest : List (Cmd ℝ), draw realTrig = some (circles ++ (ringLetter realTrig 0 ++ rest))) ∧
    ∃ out : List (Prim ℝ), drawn realTrig = some out ∧
      (textPrims out)[0]? =
        some ⟨.text (some "h") 0 0, ⟨some (.gray 255), none, 16, .center, .center⟩,
          ⟨1, 0, 0, 1, 735, 400⟩⟩ := by
  have h0 : ringLetter realTrig 0 =
      [.push, .translate 735 400, .rotate 0, .text (some "h") 0 0, .pop] := by
    have hl : letters[0]? = some "h" := by decide
    simp only [ringLetter, hl]
    simp [realTrig, radians, ringAngle, ringAnchor]
    norm_num
  refine ⟨rfl, h0, ?_, _, drawn_eq realTrig, ?_⟩
  · have h72 : List.range 72 = 0 :: (List.range 71).map Nat.succ := List.range_succ_eq_map 71
    rw [draw_eq, ringLetters, h72, List.flatMap_cons, List.append_assoc]
    exact ⟨_, rfl⟩
  · rw [textPrims_rendering_ring realTrig 0 (by decide)]
    have hl : letters[0]? = some "h" := by decide
    simp only [ringText, hl, centred]
    simp [realTrig, radians, ringAngle, ringAnchor, Mat.rotate, Mat.translate, Mat.id]
    norm_num

end RingClaims

/-! ## Claims about the heptagons -/

section HeptagonClaims

open Real

end HeptagonClaims

/-! ## Claims about the pentagram and the apex cross -/

section PentagramClaims

open Real

end PentagramClaims

end Sigillum
